import Mathlib

/-!
Shallow embedding of the product service: the backend resource routes
of src/backend/src/types/product.ts, the mongoose schema of
src/backend/src/models/product.ts, and the catch block of the gateway
proxy, together with theorems settling the specification claims.

Modelling conventions:
- JavaScript numbers are modelled as rationals; NaN and the non-finite
  values are outside the modelled fragment (every route that stores a
  number first checks typeof and a numeric bound).
- Request-body values are modelled by the JSValue fragment below;
  objects, arrays and null are outside the fragment.
- The document store is a list of documents plus a counter from which
  ids and creation stamps are generated; findOneAndUpdate applies its
  filter and its mutation in one step, exactly one store request.
- String paths of the schema carry a trim setter and defaults, both
  applied by the save and set-update models; query-string parameters
  arrive already parsed, with an Option none for absent or unparsable.
-/

namespace ProductService

attribute [local semireducible] Rat.add Rat.mul Rat.inv Rat.sub Rat.ofScientific

/-- Fragment of JavaScript request-body values: numbers as rationals,
strings and booleans, plus undef for an absent field. -/
inductive JSValue where
  | num (q : ℚ)
  | str (s : String)
  | boolV (b : Bool)
  | undef
  deriving DecidableEq, Repr

/-- JavaScript truthiness on the modelled fragment. -/
def jsFalsy : JSValue → Bool
  | .num q => q == 0
  | .str s => s.isEmpty
  | .boolV b => !b
  | .undef => true

/-- Test for typeof v being string. -/
def JSValue.isStr : JSValue → Bool
  | .str _ => true
  | _ => false

/-- Test for typeof v being number. -/
def JSValue.isNum : JSValue → Bool
  | .num _ => true
  | _ => false

/-- String payload; the routes read it only under an isStr guard. -/
def JSValue.asStr : JSValue → String
  | .str s => s
  | _ => ""

/-- Numeric payload; the routes read it only under an isNum guard. -/
def JSValue.asNum : JSValue → ℚ
  | .num q => q
  | _ => 0

/-- Whitespace characters recognised by the modelled trim. -/
def isWsChar (c : Char) : Bool :=
  c == ' ' || c == '\t' || c == '\n' || c == '\r'

/-- Removal of leading whitespace. -/
def trimLeft (l : List Char) : List Char := l.dropWhile isWsChar

/-- Model of the trim method of strings: first strip trailing
whitespace through a double reversal, then strip leading whitespace. -/
def jsTrimList (l : List Char) : List Char :=
  trimLeft ((trimLeft l.reverse).reverse)

/-- Trim on packed strings. -/
def jsTrim (s : String) : String := String.mk (jsTrimList s.toList)

/-- Helper sanitizeString of the routes file: trim, then delete every
angle bracket. -/
def sanitizeString (s : String) : String :=
  String.mk ((jsTrimList s.toList).filter (fun c => !(c == '<' || c == '>')))

/-- True when the string holds no angle bracket. -/
def noAngles (s : String) : Bool :=
  s.toList.all (fun c => !(c == '<' || c == '>'))

/-- True when the character list neither starts nor ends with
whitespace. -/
def noEdgeWsList (l : List Char) : Bool :=
  (match l.head? with
   | some c => !isWsChar c
   | none => true) &&
  (match l.getLast? with
   | some c => !isWsChar c
   | none => true)

/-- True when the string neither starts nor ends with whitespace. -/
def noEdgeWs (s : String) : Bool := noEdgeWsList s.toList

/-- Hexadecimal digit test. -/
def isHexChar (c : Char) : Bool :=
  c.isDigit || ('a' ≤ c && c ≤ 'f') || ('A' ≤ c && c ≤ 'F')

/-- Model of the ObjectId validity check of mongoose: a 24-character
hexadecimal string, or any 12-character string taken as raw bytes. -/
def isValidObjectId (s : String) : Bool :=
  (s.length == 24 && s.toList.all isHexChar) || s.length == 12

/-- Digit character for a value below 16. -/
def hexChar (n : ℕ) : Char :=
  if n < 10 then Char.ofNat (48 + n) else Char.ofNat (87 + n)

/-- Digits of n in the given base, via fuel. -/
def digitsAux (base : ℕ) : ℕ → ℕ → List Char
  | 0, _ => []
  | fuel + 1, n =>
    if n < base then [hexChar n]
    else digitsAux base fuel (n / base) ++ [hexChar (n % base)]

/-- Hexadecimal digits of n. -/
def hexDigits (n : ℕ) : List Char := digitsAux 16 (n + 1) n

/-- Decimal digits of n. -/
def decDigits (n : ℕ) : List Char := digitsAux 10 (n + 1) n

/-- Identifier the store assigns to the n-th created document: n in
hexadecimal, left-padded with zeros to 24 characters. -/
def hexId (n : ℕ) : String :=
  String.mk (List.replicate (24 - (hexDigits n).length) '0' ++ hexDigits n)

/-- Rendering of a rational used when the store casts a numeric value
into a String path; its exact shape is irrelevant to every claim, only
that it holds neither whitespace nor angle brackets. -/
def ratToStr (q : ℚ) : String :=
  String.mk
    ((if q.num < 0 then ['-'] else []) ++ decDigits q.num.natAbs ++
      (if q.den == 1 then [] else '/' :: decDigits q.den))

/-- A stored product document. -/
structure Product where
  _id : String
  name : String
  price : ℚ
  description : String
  category : String
  stock : ℚ
  createdAt : ℕ
  deriving DecidableEq, Repr

/-- The document store: documents in insertion order plus the counter
generating ids and creation stamps. -/
structure Store where
  docs : List Product
  seq : ℕ
  deriving DecidableEq, Repr

/-- The empty store. -/
def store0 : Store := { docs := [], seq := 0 }

/-- Pre-save hook of the product schema: negative stock is coerced to
zero at save time. -/
def preSaveStock (s : ℚ) : ℚ := if s < 0 then 0 else s

/-- Value the store places into a String path: strings pass the trim
setter of the schema; numbers and booleans are cast to a rendering. -/
def castToStoreString : JSValue → String
  | .str s => jsTrim s
  | .num q => ratToStr q
  | .boolV b => cond b "true" "false"
  | .undef => ""

/-- Document built by save before validation: schema defaults (empty
description, category uncategorized, stock zero), trim setters on
String paths, the pre-save hook on stock, and a fresh id and creation
stamp. -/
def buildDoc (st : Store) (nm : String) (price : ℚ)
    (descr : Option String) (cat : Option String) (stk : Option ℚ) : Product :=
  { _id := hexId st.seq
    name := jsTrim nm
    price := price
    description := jsTrim (descr.getD "")
    category := jsTrim (cat.getD "uncategorized")
    stock := preSaveStock (stk.getD 0)
    createdAt := st.seq }

/-- Validators of the product schema as save runs them on the built
document (after the setters): name required — which fails on the empty
string — and at most 200 characters, description at most 2000,
category at most 100, price and stock at least zero. -/
def validDoc (p : Product) : Bool :=
  p.name.length != 0 && decide (p.name.length ≤ 200) &&
    decide (p.description.length ≤ 2000) && decide (p.category.length ≤ 100) &&
    decide (0 ≤ p.price) && decide (0 ≤ p.stock)

/-- Save of a newly built document: the document passes the setters,
defaults and pre-save hook of buildDoc and then the schema validators;
a validation failure stores nothing — the thrown ValidationError the
route catch turns into a 500 is reported as none. -/
def saveNew (st : Store) (nm : String) (price : ℚ)
    (descr : Option String) (cat : Option String) (stk : Option ℚ) :
    Option (Product × Store) :=
  let p := buildDoc st nm price descr cat stk
  if validDoc p then some (p, { docs := st.docs ++ [p], seq := st.seq + 1 })
  else none

/-- Update record a replace or partial-update request sends to the
store: one optional entry per mutable field. -/
structure UpdateData where
  name : Option String := none
  price : Option ℚ := none
  description : Option JSValue := none
  category : Option JSValue := none
  stock : Option ℚ := none
  deriving DecidableEq, Repr

/-- Emptiness of the update set. -/
def UpdateData.isEmpty (u : UpdateData) : Bool :=
  u.name.isNone && u.price.isNone && u.description.isNone &&
    u.category.isNone && u.stock.isNone

/-- Field names present in the update set, in allow-list order. -/
def UpdateData.keys (u : UpdateData) : List String :=
  (if u.name.isSome then ["name"] else []) ++
    (if u.price.isSome then ["price"] else []) ++
    (if u.description.isSome then ["description"] else []) ++
    (if u.category.isSome then ["category"] else []) ++
    (if u.stock.isSome then ["stock"] else [])

/-- Application of a set-update to a document, with the schema setters
on String paths. -/
def applySet (u : UpdateData) (p : Product) : Product :=
  { p with
    name := match u.name with | some s => jsTrim s | none => p.name
    price := u.price.getD p.price
    description :=
      match u.description with
      | some v => castToStoreString v
      | none => p.description
    category :=
      match u.category with
      | some v => castToStoreString v
      | none => p.category
    stock := u.stock.getD p.stock }

/-- Update validators, as findByIdAndUpdate runs them under the
runValidators flag: each path present in the set-update is validated
after its setter — maxlength on the string paths and min zero on the
numeric ones; the required validator only fails on an unset, which the
routes never issue. Validation happens before the query reaches the
store, so a failure throws even when the id matches no document. -/
def validUpdate (u : UpdateData) : Bool :=
  (match u.name with
   | some s => decide ((jsTrim s).length ≤ 200)
   | none => true) &&
  (match u.price with
   | some q => decide (0 ≤ q)
   | none => true) &&
  (match u.description with
   | some v => decide ((castToStoreString v).length ≤ 2000)
   | none => true) &&
  (match u.category with
   | some v => decide ((castToStoreString v).length ≤ 100)
   | none => true) &&
  (match u.stock with
   | some q => decide (0 ≤ q)
   | none => true)

/-- Update of the first document matching the filter; the guard and
the mutation are applied in one step. Returns the updated document, as
under the new flag. -/
def updateFirst (pred : Product → Bool) (f : Product → Product) :
    List Product → Option Product × List Product
  | [] => (none, [])
  | p :: ps =>
    if pred p then (some (f p), f p :: ps)
    else
      let r := updateFirst pred f ps
      (r.1, p :: r.2)

/-- findOneAndUpdate against the store. -/
def findOneAndUpdate (st : Store) (pred : Product → Bool)
    (f : Product → Product) : Option Product × Store :=
  let r := updateFirst pred f st.docs
  (r.1, { st with docs := r.2 })

/-- findByIdAndUpdate with a set-update. -/
def findByIdAndUpdate (st : Store) (id : String) (u : UpdateData) :
    Option Product × Store :=
  findOneAndUpdate st (fun p => p._id == id) (applySet u)

/-- findById against the store. -/
def findById (st : Store) (id : String) : Option Product :=
  st.docs.find? (fun p => p._id == id)

/-- Result of the create route; serverError is the catch answering
500. -/
inductive CreateResult where
  | created (p : Product)
  | badRequest (error msg : String)
  | serverError (error msg : String)
  deriving DecidableEq, Repr

/-- Status code of a create result. -/
def CreateResult.status : CreateResult → ℕ
  | .created _ => 201
  | .badRequest _ _ => 400
  | .serverError _ _ => 500

/-- Result of the single-record update routes; serverError is the
catch answering 500. -/
inductive UpdResult where
  | ok (p : Product)
  | badRequest (error msg : String)
  | notFound (error msg : String)
  | serverError (error msg : String)
  deriving DecidableEq, Repr

/-- Status code of an update result. -/
def UpdResult.status : UpdResult → ℕ
  | .ok _ => 200
  | .badRequest _ _ => 400
  | .notFound _ _ => 404
  | .serverError _ _ => 500

/-- Stock of the returned record, when the result carries one. -/
def UpdResult.stockOf : UpdResult → Option ℚ
  | .ok p => some p.stock
  | _ => none

/-- Request body for create, replace and partial update; an absent
field is undef. -/
structure ProductBody where
  name : JSValue := .undef
  price : JSValue := .undef
  description : JSValue := .undef
  category : JSValue := .undef
  stock : JSValue := .undef
  deriving DecidableEq, Repr

/-- Name check of the create route: rejected when falsy, not a string,
or blank after trimming. -/
def createNameInvalid (v : JSValue) : Bool :=
  jsFalsy v || !v.isStr || jsTrim v.asStr == ""

/-- Name check of the replace route, applied to a present name. -/
def updNameInvalid (v : JSValue) : Bool :=
  !v.isStr || jsTrim v.asStr == ""

/-- Price check of the create route. -/
def createPriceInvalid (v : JSValue) : Bool :=
  !v.isNum || decide (v.asNum < 0)

/-- Price check of the replace route, applied to a present price. -/
def updPriceInvalid (v : JSValue) : Bool :=
  !v.isNum || decide (v.asNum < 0)

/-- Stock check of the replace route, applied to a present stock. -/
def updStockInvalid (v : JSValue) : Bool :=
  !v.isNum || decide (v.asNum < 0)

/-- Optional description the create route adds to the product data. -/
def createDescr (b : ProductBody) : Option String :=
  if !jsFalsy b.description && b.description.isStr then
    some (sanitizeString b.description.asStr)
  else none

/-- Optional category the create route adds to the product data. -/
def createCat (b : ProductBody) : Option String :=
  if !jsFalsy b.category && b.category.isStr then
    some (sanitizeString b.category.asStr)
  else none

/-- Optional stock the create route adds to the product data. -/
def createStk (b : ProductBody) : Option ℚ :=
  if b.stock.isNum && decide (0 ≤ b.stock.asNum) then
    some ((⌊b.stock.asNum⌋ : ℤ) : ℚ)
  else none

/-- POST handler of the products router; a save-time validation
failure lands in the catch, a 500. -/
def createRoute (st : Store) (b : ProductBody) : CreateResult × Store :=
  if createNameInvalid b.name then
    (.badRequest "Invalid name" "Name is required and must be a non-empty string", st)
  else if createPriceInvalid b.price then
    (.badRequest "Invalid price" "Price must be a non-negative number", st)
  else
    match saveNew st (sanitizeString b.name.asStr) b.price.asNum
        (createDescr b) (createCat b) (createStk b) with
    | some (p, st2) => (.created p, st2)
    | none => (.serverError "Server error" "Failed to create product", st)

/-- Update set built by the replace route after its validations. -/
def putUpdate (b : ProductBody) : UpdateData :=
  { name := if b.name != .undef then some (sanitizeString b.name.asStr) else none
    price := if b.price != .undef then some b.price.asNum else none
    description :=
      if b.description != .undef then
        some (.str (if b.description.isStr then sanitizeString b.description.asStr else ""))
      else none
    category :=
      if b.category != .undef then
        some (.str (if b.category.isStr then sanitizeString b.category.asStr else ""))
      else none
    stock := if b.stock != .undef then some ((⌊b.stock.asNum⌋ : ℤ) : ℚ) else none }

/-- PUT handler of the products router, on a path id. -/
def putRoute (st : Store) (id : String) (b : ProductBody) :
    UpdResult × Store :=
  if !isValidObjectId id then
    (.badRequest "Invalid ID" "Product ID is not valid", st)
  else if b.name != .undef && updNameInvalid b.name then
    (.badRequest "Invalid name" "Name must be a non-empty string", st)
  else if b.price != .undef && updPriceInvalid b.price then
    (.badRequest "Invalid price" "Price must be a non-negative number", st)
  else if b.stock != .undef && updStockInvalid b.stock then
    (.badRequest "Invalid stock" "Stock must be a non-negative number", st)
  else
    let u := putUpdate b
    if u.isEmpty then
      (.badRequest "No data" "No valid fields to update", st)
    else if !validUpdate u then
      (.serverError "Server error" "Failed to update product", st)
    else
      match findByIdAndUpdate st id u with
      | (some p, st2) => (.ok p, st2)
      | (none, st2) => (.notFound "Not found" "Product not found", st2)

/-- Update set built by the partial-update route: each allow-listed
field is considered when present and silently skipped when its own
check fails; string values are sanitized, other values pass through. -/
def patchUpdate (b : ProductBody) : UpdateData :=
  { name :=
      if b.name != .undef then
        if !b.name.isStr || jsTrim b.name.asStr == "" then none
        else some (sanitizeString b.name.asStr)
      else none
    price :=
      if b.price != .undef then
        if !b.price.isNum || decide (b.price.asNum < 0) then none
        else some b.price.asNum
      else none
    description :=
      if b.description != .undef then
        some (if b.description.isStr then .str (sanitizeString b.description.asStr)
              else b.description)
      else none
    category :=
      if b.category != .undef then
        some (if b.category.isStr then .str (sanitizeString b.category.asStr)
              else b.category)
      else none
    stock :=
      if b.stock != .undef then
        if !b.stock.isNum || decide (b.stock.asNum < 0) then none
        else some b.stock.asNum
      else none }

/-- PATCH handler of the products router, on a path id. -/
def patchRoute (st : Store) (id : String) (b : ProductBody) :
    UpdResult × Store :=
  if !isValidObjectId id then
    (.badRequest "Invalid ID" "Product ID is not valid", st)
  else
    let u := patchUpdate b
    if u.isEmpty then
      (.badRequest "No data" "No valid fields to update", st)
    else if !validUpdate u then
      (.serverError "Server error" "Failed to update product", st)
    else
      match findByIdAndUpdate st id u with
      | (some p, st2) => (.ok p, st2)
      | (none, st2) => (.notFound "Not found" "Product not found", st2)

/-- Body of a stock mutation request. -/
structure StockBody where
  quantity : JSValue := .undef
  operation : JSValue := .undef
  deriving DecidableEq, Repr

/-- Filter of the conditional stock update: the id match plus, for a
decrement, the guard that current stock covers the quantity. -/
def stockPred (id : String) (isDec : Bool) (q : ℚ) (p : Product) : Bool :=
  p._id == id && (!isDec || decide (q ≤ p.stock))

/-- Mutation of the conditional stock update. -/
def stockMutate (inc : ℚ) (p : Product) : Product :=
  { p with stock := p.stock + inc }

/-- PATCH handler of the stock path of the products router. -/
def stockRoute (st : Store) (id : String) (b : StockBody) :
    UpdResult × Store :=
  if !isValidObjectId id then
    (.badRequest "Invalid ID" "Product ID is not valid", st)
  else if !b.quantity.isNum || decide (b.quantity.asNum ≤ 0) then
    (.badRequest "Invalid quantity" "Quantity must be a positive number", st)
  else
    let q := b.quantity.asNum
    let isDec := b.operation == .str "decrement"
    let inc := if isDec then -q else q
    match findOneAndUpdate st (stockPred id isDec q) (stockMutate inc) with
    | (some p, st2) => (.ok p, st2)
    | (none, st2) =>
      match findById st2 id with
      | none => (.notFound "Not found" "Product not found", st2)
      | some _ =>
        (.badRequest "Insufficient stock" "Not enough stock to decrement", st2)

/-- Query parameters of a list request, already parsed: none models an
absent parameter, and for the numeric ones also an unparsable value. -/
structure ListQuery where
  page : Option ℤ := none
  limit : Option ℤ := none
  sortBy : Option String := none
  order : Option String := none
  category : Option String := none
  minPrice : Option ℚ := none
  maxPrice : Option ℚ := none
  inStock : Option String := none

/-- Behaviour of a parseInt with an or-default: a missing or unparsable
value and a parsed zero, which is falsy, both give the default. -/
def parsedOr (v : Option ℤ) (d : ℤ) : ℤ :=
  match v with
  | none => d
  | some n => if n == 0 then d else n

/-- Effective page of a list request. -/
def effPage (q : ListQuery) : ℤ := max 1 (parsedOr q.page 1)

/-- Effective limit of a list request. -/
def effLimit (q : ListQuery) : ℤ := min 100 (max 1 (parsedOr q.limit 10))

/-- Filter a list request builds from its query parameters; a present
but empty category is falsy and adds no constraint. -/
def matchesFilter (q : ListQuery) (p : Product) : Bool :=
  (match q.category with
   | some c => c.isEmpty || p.category == c
   | none => true) &&
  (match q.minPrice with
   | some m => decide (m ≤ p.price)
   | none => true) &&
  (match q.maxPrice with
   | some m => decide (p.price ≤ m)
   | none => true) &&
  (if q.inStock == some "true" then decide (0 < p.stock) else true)

/-- Comparison for the requested sort field; a field outside the
schema compares all documents equal and is modelled by creation
order. -/
def fieldLe (field : String) (a b : Product) : Bool :=
  match field with
  | "price" => decide (a.price ≤ b.price)
  | "name" => decide (a.name ≤ b.name)
  | "stock" => decide (a.stock ≤ b.stock)
  | "category" => decide (a.category ≤ b.category)
  | _ => decide (a.createdAt ≤ b.createdAt)

/-- Comparison of a list request: the requested field, descending
unless order is asc. -/
def listLe (q : ListQuery) (a b : Product) : Bool :=
  if q.order == some "asc" then fieldLe (q.sortBy.getD "createdAt") a b
  else fieldLe (q.sortBy.getD "createdAt") b a

/-- Insertion into a sorted list. -/
def insertLe (le : Product → Product → Bool) (x : Product) :
    List Product → List Product
  | [] => [x]
  | y :: ys => if le x y then x :: y :: ys else y :: insertLe le x ys

/-- Sort used by the store for a find with sort options. -/
def sortLe (le : Product → Product → Bool) : List Product → List Product
  | [] => []
  | x :: xs => insertLe le x (sortLe le xs)

/-- Response of the list route. -/
structure ListResponse where
  products : List Product
  page : ℤ
  limit : ℤ
  total : ℕ
  pages : ℤ
  hasNext : Bool
  hasPrev : Bool
  deriving DecidableEq, Repr

/-- Ceiling of total over limit, over the rationals. -/
def jsCeil (t : ℕ) (l : ℤ) : ℤ := ⌈((t : ℚ) / (l : ℚ))⌉

/-- GET handler of the products router: pagination, filtering and
sorting. -/
def listRoute (st : Store) (q : ListQuery) : ListResponse :=
  let page := effPage q
  let limit := effLimit q
  let skip := (page - 1) * limit
  let matching := st.docs.filter (matchesFilter q)
  let total := matching.length
  { products := ((sortLe (listLe q) matching).drop skip.toNat).take limit.toNat
    page := page
    limit := limit
    total := total
    pages := jsCeil total limit
    hasNext := decide (page * limit < (total : ℤ))
    hasPrev := decide (1 < page) }

/-- Result of the search route. -/
inductive SearchResult where
  | ok (products : List Product) (count : ℕ)
  | badRequest (error msg : String)
  deriving DecidableEq, Repr

/-- One atom of the modelled regular-expression fragment: a literal
character or the dot wildcard. -/
inductive RAtom where
  | dot
  | lit (c : Char)
  deriving DecidableEq, Repr

/-- Metacharacters outside the modelled regular-expression fragment. -/
def regexMeta : List Char :=
  ['\\', '^', '$', '*', '+', '?', '(', ')', '[', ']', '|', '\x7b', '\x7d']

/-- Parse of a pattern inside the fragment: literal characters and the
dot wildcard; none when the pattern uses any other metacharacter. -/
def parseAtoms : List Char → Option (List RAtom)
  | [] => some []
  | c :: cs =>
    if regexMeta.contains c then none
    else
      (parseAtoms cs).map
        (fun as => (if c == '.' then RAtom.dot else RAtom.lit c) :: as)

/-- Lower-casing of an atom. -/
def lowAtom : RAtom → RAtom
  | .dot => .dot
  | .lit c => .lit c.toLower

/-- Match of an atom list against the front of the text. -/
def atomsFront : List RAtom → List Char → Bool
  | [], _ => true
  | _ :: _, [] => false
  | a :: as, c :: cs =>
    (match a with
     | RAtom.dot => true
     | RAtom.lit l => l == c) && atomsFront as cs

/-- Match of an atom list anywhere in the text. -/
def atomsSearch (as : List RAtom) : List Char → Bool
  | [] => atomsFront as []
  | c :: cs => atomsFront as (c :: cs) || atomsSearch as cs

/-- Model of a case-insensitive RegExp test, for patterns inside the
modelled fragment; patterns outside the fragment are not modelled and
test false. -/
def regexTestI (pat s : String) : Bool :=
  match parseAtoms pat.toList with
  | some as => atomsSearch (as.map lowAtom) (s.toList.map Char.toLower)
  | none => false

/-- Match of the search pattern against one document, an or over the
three text fields. -/
def searchDoc (pat : String) (p : Product) : Bool :=
  regexTestI pat p.name || regexTestI pat p.description ||
    regexTestI pat p.category

/-- Creation-time-descending comparison used by search. -/
def createdDescLe (a b : Product) : Bool := decide (b.createdAt ≤ a.createdAt)

/-- GET handler of the search path of the products router. -/
def searchRoute (st : Store) (q : JSValue) : SearchResult :=
  if jsFalsy q || !q.isStr || jsTrim q.asStr == "" then
    .badRequest "Invalid query" "Search query is required"
  else
    let pat := sanitizeString q.asStr
    let products := (sortLe createdDescLe (st.docs.filter (searchDoc pat))).take 50
    .ok products products.length

/-- Substring search: does the needle occur contiguously in the
haystack. -/
def subSearch (needle : List Char) : List Char → Bool
  | [] => needle.isEmpty
  | c :: cs => needle.isPrefixOf (c :: cs) || subSearch needle cs

/-- Case-insensitive substring containment, the reading of the search
claim. -/
def containsI (needle hay : String) : Bool :=
  subSearch (needle.toList.map Char.toLower) (hay.toList.map Char.toLower)

/-- Pattern inside the literal fragment: no metacharacter, no dot. -/
def plainPattern (s : String) : Bool :=
  s.toList.all (fun c => !regexMeta.contains c && c != '.')

/-- Result set the search claim predicts for a literal pattern. -/
def searchSpecList (st : Store) (pat : String) : List Product :=
  (sortLe createdDescLe (st.docs.filter (fun p =>
    containsI pat p.name || containsI pat p.description ||
      containsI pat p.category))).take 50

/-- Failure of an upstream call as the gateway catch block sees it. -/
structure ProxyError where
  isAxiosError : Bool
  code : Option String := none
  response : Option (ℕ × String) := none
  deriving DecidableEq, Repr

/-- Body shape of a gateway failure response. -/
inductive ProxyBody where
  | errMsg (error msg : String)
  | errOnly (error : String)
  | upstream (data : String)
  deriving DecidableEq, Repr

/-- Outcome of the gateway catch block. -/
inductive ProxyOutcome where
  | respond (status : ℕ) (body : ProxyBody)
  | escalate
  deriving DecidableEq, Repr

/-- Catch block of proxyRequest in the gateway: the mapping from a
failed upstream call to the response, given whether response output
already started. -/
def proxyCatch (e : ProxyError) (headersSent : Bool) : ProxyOutcome :=
  if e.isAxiosError then
    if e.code == some "ECONNREFUSED" then
      .respond 503 (.errMsg "Backend service unavailable"
        "The backend service is currently unavailable. Please try again later.")
    else if e.code == some "ETIMEDOUT" || e.code == some "ECONNABORTED" then
      .respond 504 (.errMsg "Backend service timeout"
        "The backend service did not respond in time. Please try again later.")
    else
      match e.response with
      | some r => .respond r.1 (.upstream r.2)
      | none =>
        if !headersSent then .respond 502 (.errOnly "bad gateway")
        else .escalate
  else
    if !headersSent then .respond 502 (.errOnly "bad gateway")
    else .escalate

/-- Stores reachable from the empty store by the mutating product
operations the invariant claim ranges over. -/
inductive Reachable : Store → Prop
  | init : Reachable store0
  | create (st : Store) (b : ProductBody) : Reachable st →
      Reachable (createRoute st b).2
  | replace (st : Store) (id : String) (b : ProductBody) : Reachable st →
      Reachable (putRoute st id b).2
  | patch (st : Store) (id : String) (b : ProductBody) : Reachable st →
      Reachable (patchRoute st id b).2
  | stockMut (st : Store) (id : String) (b : StockBody) : Reachable st →
      Reachable (stockRoute st id b).2

/-- Fixture: one product with stock three. -/
def exProd : Product :=
  { _id := "aaaaaaaaaaaaaaaaaaaaaaaa"
    name := "Widget"
    price := 10
    description := ""
    category := "uncategorized"
    stock := 3
    createdAt := 0 }

/-- Fixture store holding exProd. -/
def exStore : Store := { docs := [exProd], seq := 1 }

/-- Fixture id of exProd. -/
def exId : String := "aaaaaaaaaaaaaaaaaaaaaaaa"

/-- Fixture product for the search counterexample. -/
def laptopProd : Product :=
  { _id := "bbbbbbbbbbbbbbbbbbbbbbbb"
    name := "Laptop"
    price := 999
    description := ""
    category := "uncategorized"
    stock := 1
    createdAt := 0 }

/-- Fixture store for the search counterexample. -/
def searchStore : Store := { docs := [laptopProd], seq := 1 }

/-- Fixture body creating a product with stock five. -/
def c1Body : ProductBody :=
  { name := .str "Gadget", price := .num 1, stock := .num 5 }

/-- Store after creating the fixture product. -/
def c1Store1 : Store := (createRoute store0 c1Body).2

/-- Fixture stock mutation by one half. -/
def c1Inc : StockBody := { quantity := .num (1/2), operation := .str "increment" }

/-- Store after incrementing the fixture stock by one half. -/
def c1Store2 : Store := (stockRoute c1Store1 (hexId 0) c1Inc).2

/-- Fixture partial-update body: valid name, invalid price, valid
stock. -/
def pb5 : ProductBody :=
  { name := .str " Phone<1> ", price := .str "oops", stock := .num 7 }

/-- Fixture partial-update body whose only field is a category of 101
characters, past the schema maxlength of 100. -/
def longCat : ProductBody :=
  { category := .str (String.mk (List.replicate 101 'x')) }

/-- Stock nonnegativity invariant over a store. -/
def stockInv (st : Store) : Prop := ∀ p ∈ st.docs, 0 ≤ p.stock

/-- Angle-free and edge-whitespace-free text. -/
def textOk (s : String) : Prop := noAngles s = true ∧ noEdgeWs s = true

/-- Cleanliness of the three text fields of a stored document. -/
def docTextOk (p : Product) : Prop :=
  textOk p.name ∧ textOk p.description ∧ textOk p.category

/-- Cleanliness of every stored document. -/
def storeTextOk (st : Store) : Prop := ∀ p ∈ st.docs, docTextOk p

theorem updateFirst_fst (pred : Product → Bool) (f : Product → Product) :
    ∀ l : List Product, (updateFirst pred f l).1 = (l.find? pred).map f
  | [] => rfl
  | p :: ps => by
    by_cases h : pred p
    · simp [updateFirst, List.find?_cons, h]
    · simp [updateFirst, List.find?_cons, h, updateFirst_fst pred f ps]

theorem updateFirst_snd_none (pred : Product → Bool) (f : Product → Product) :
    ∀ l : List Product, l.find? pred = none → (updateFirst pred f l).2 = l
  | [] => by intro _; rfl
  | p :: ps => by
    intro hnone
    rw [List.find?_eq_none] at hnone
    have hp : pred p = false := Bool.eq_false_iff.mpr (hnone p (by simp))
    have hps : ps.find? pred = none := by
      rw [List.find?_eq_none]
      exact fun x hx => hnone x (by simp [hx])
    simp [updateFirst, hp, updateFirst_snd_none pred f ps hps]

theorem mem_updateFirst (pred : Product → Bool) (f : Product → Product) :
    ∀ l : List Product, ∀ x, x ∈ (updateFirst pred f l).2 →
      x ∈ l ∨ ∃ p, p ∈ l ∧ pred p = true ∧ x = f p
  | [] => by simp [updateFirst]
  | p :: ps => by
    intro x hx
    by_cases h : pred p
    · simp only [updateFirst, if_pos h, List.mem_cons] at hx
      rcases hx with rfl | hx
      · exact Or.inr ⟨p, by simp, h, rfl⟩
      · exact Or.inl (List.mem_cons_of_mem _ hx)
    · simp only [updateFirst, if_neg h, List.mem_cons] at hx
      rcases hx with rfl | hx
      · exact Or.inl (List.mem_cons_self _ _)
      · rcases mem_updateFirst pred f ps x hx with h1 | ⟨r, hr, hpr, hxr⟩
        · exact Or.inl (List.mem_cons_of_mem _ h1)
        · exact Or.inr ⟨r, List.mem_cons_of_mem _ hr, hpr, hxr⟩

theorem preSaveStock_nonneg (s : ℚ) : 0 ≤ preSaveStock s := by
  unfold preSaveStock
  split
  · exact le_refl 0
  · exact le_of_not_lt (by assumption)

theorem saveNew_some (st : Store) (nm : String) (price : ℚ)
    (descr cat : Option String) (stk : Option ℚ) (p : Product) (st2 : Store)
    (h : saveNew st nm price descr cat stk = some (p, st2)) :
    p = buildDoc st nm price descr cat stk ∧
      st2 = { docs := st.docs ++ [p], seq := st.seq + 1 } := by
  simp only [saveNew] at h
  split at h
  · rw [Option.some.injEq, Prod.mk.injEq] at h
    obtain ⟨h1, h2⟩ := h
    subst h1
    exact ⟨rfl, h2.symm⟩
  · exact absurd h (by simp)

theorem createRoute_stockInv (st : Store) (b : ProductBody)
    (h : stockInv st) : stockInv (createRoute st b).2 := by
  unfold createRoute
  split
  · exact h
  · split
    · exact h
    · split
      · rename_i p st2 heq
        rcases saveNew_some _ _ _ _ _ _ _ _ heq with ⟨hp, hst⟩
        intro x hx
        rw [show (CreateResult.created p, st2).2 = st2 from rfl, hst] at hx
        simp only [List.mem_append, List.mem_singleton] at hx
        rcases hx with hx | rfl
        · exact h x hx
        · rw [hp]
          exact preSaveStock_nonneg _
      · exact h

theorem putRoute_snd_cases (st : Store) (id : String) (b : ProductBody) :
    (putRoute st id b).2 = st ∨
      ((b.stock != .undef && updStockInvalid b.stock) = false ∧
        (putRoute st id b).2.docs =
          (updateFirst (fun p => p._id == id) (applySet (putUpdate b)) st.docs).2) := by
  simp only [putRoute]
  split
  · exact Or.inl rfl
  · split
    · exact Or.inl rfl
    · split
      · exact Or.inl rfl
      · split
        · exact Or.inl rfl
        · rename_i h4
          split
          · exact Or.inl rfl
          · split
            · exact Or.inl rfl
            · refine Or.inr ⟨Bool.of_not_eq_true h4, ?_⟩
              split
              · rename_i p st2 heq
                have h2 := congrArg (fun z => (Prod.snd z).docs) heq
                exact (h2.symm.trans rfl)
              · rename_i st2 heq
                have h2 := congrArg (fun z => (Prod.snd z).docs) heq
                exact (h2.symm.trans rfl)

theorem patchRoute_snd_cases (st : Store) (id : String) (b : ProductBody) :
    (patchRoute st id b).2 = st ∨
      (patchRoute st id b).2.docs =
        (updateFirst (fun p => p._id == id) (applySet (patchUpdate b)) st.docs).2 := by
  simp only [patchRoute]
  split
  · exact Or.inl rfl
  · split
    · exact Or.inl rfl
    · split
      · exact Or.inl rfl
      · refine Or.inr ?_
        split
        · rename_i p st2 heq
          have h2 := congrArg (fun z => (Prod.snd z).docs) heq
          exact (h2.symm.trans rfl)
        · rename_i st2 heq
          have h2 := congrArg (fun z => (Prod.snd z).docs) heq
          exact (h2.symm.trans rfl)

theorem stockRoute_snd_cases (st : Store) (id : String) (b : StockBody) :
    (stockRoute st id b).2 = st ∨
      (b.quantity.isNum = true ∧ 0 < b.quantity.asNum ∧
        (stockRoute st id b).2.docs =
          (updateFirst (stockPred id (b.operation == .str "decrement") b.quantity.asNum)
            (stockMutate (if b.operation == .str "decrement" then -b.quantity.asNum
              else b.quantity.asNum)) st.docs).2) := by
  simp only [stockRoute]
  split
  · exact Or.inl rfl
  · split
    · exact Or.inl rfl
    · rename_i h1 h2
      rw [Bool.or_eq_true, not_or, Bool.not_eq_true, Bool.not_eq_true] at h2
      refine Or.inr ⟨by simpa using h2.1, by simpa [not_le] using of_decide_eq_false h2.2, ?_⟩
      split
      · rename_i p st2 heq
        have h3 := congrArg (fun z => (Prod.snd z).docs) heq
        exact (h3.symm.trans rfl)
      · rename_i st2 heq
        have h3 := congrArg (fun z => (Prod.snd z).docs) heq
        split
        · exact (h3.symm.trans rfl)
        · exact (h3.symm.trans rfl)

theorem applySet_stock_nonneg (u : UpdateData) (p : Product)
    (hu : ∀ x, u.stock = some x → 0 ≤ x) (hp : 0 ≤ p.stock) :
    0 ≤ (applySet u p).stock := by
  show 0 ≤ u.stock.getD p.stock
  rcases h : u.stock with _ | x
  · simpa using hp
  · simpa using hu x h

theorem putUpdate_stock_nonneg (b : ProductBody)
    (h : (b.stock != .undef && updStockInvalid b.stock) = false) :
    ∀ x, (putUpdate b).stock = some x → 0 ≤ x := by
  intro x hx
  simp only [putUpdate] at hx
  by_cases hb : (b.stock != .undef) = true
  · rw [if_pos hb] at hx
    injection hx with hx
    subst hx
    rw [hb, Bool.true_and] at h
    unfold updStockInvalid at h
    rw [Bool.or_eq_false_iff] at h
    have h2 : 0 ≤ b.stock.asNum := le_of_not_lt (of_decide_eq_false h.2)
    have h3 : (0 : ℤ) ≤ ⌊b.stock.asNum⌋ := Int.floor_nonneg.mpr h2
    exact_mod_cast h3
  · rw [if_neg hb] at hx
    exact absurd hx (by simp)

theorem patchUpdate_stock_nonneg (b : ProductBody) :
    ∀ x, (patchUpdate b).stock = some x → 0 ≤ x := by
  intro x hx
  simp only [patchUpdate] at hx
  split at hx
  · split at hx
    · exact absurd hx (by simp)
    · rename_i h
      injection hx with hx
      subst hx
      rw [Bool.or_eq_true, not_or] at h
      exact le_of_not_lt (of_decide_eq_false (Bool.of_not_eq_true h.2))
  · exact absurd hx (by simp)

theorem stockMutate_nonneg (id : String) (b : StockBody) (p : Product)
    (hq : 0 < b.quantity.asNum)
    (hpred : stockPred id (b.operation == .str "decrement") b.quantity.asNum p = true)
    (hp : 0 ≤ p.stock) :
    0 ≤ (stockMutate (if b.operation == .str "decrement" then -b.quantity.asNum
      else b.quantity.asNum) p).stock := by
  unfold stockPred at hpred
  rw [Bool.and_eq_true] at hpred
  have h2 := hpred.2
  by_cases hdec : (b.operation == JSValue.str "decrement") = true
  · rw [hdec] at h2
    simp only [Bool.not_true, Bool.false_or, decide_eq_true_eq] at h2
    rw [if_pos hdec]
    show 0 ≤ p.stock + -b.quantity.asNum
    linarith
  · rw [if_neg hdec]
    show 0 ≤ p.stock + b.quantity.asNum
    linarith

theorem putRoute_stockInv (st : Store) (id : String) (b : ProductBody)
    (h : stockInv st) : stockInv (putRoute st id b).2 := by
  rcases putRoute_snd_cases st id b with heq | ⟨hg, hdocs⟩
  · rw [heq]; exact h
  · intro p hp
    rw [hdocs] at hp
    rcases mem_updateFirst _ _ _ p hp with hmem | ⟨r, hr, _, rfl⟩
    · exact h p hmem
    · exact applySet_stock_nonneg _ _ (putUpdate_stock_nonneg b hg) (h r hr)

theorem patchRoute_stockInv (st : Store) (id : String) (b : ProductBody)
    (h : stockInv st) : stockInv (patchRoute st id b).2 := by
  rcases patchRoute_snd_cases st id b with heq | hdocs
  · rw [heq]; exact h
  · intro p hp
    rw [hdocs] at hp
    rcases mem_updateFirst _ _ _ p hp with hmem | ⟨r, hr, _, rfl⟩
    · exact h p hmem
    · exact applySet_stock_nonneg _ _ (patchUpdate_stock_nonneg b) (h r hr)

theorem stockRoute_stockInv (st : Store) (id : String) (b : StockBody)
    (h : stockInv st) : stockInv (stockRoute st id b).2 := by
  rcases stockRoute_snd_cases st id b with heq | ⟨_, hq, hdocs⟩
  · rw [heq]; exact h
  · intro p hp
    rw [hdocs] at hp
    rcases mem_updateFirst _ _ _ p hp with hmem | ⟨r, hr, hpred, rfl⟩
    · exact h p hmem
    · exact stockMutate_nonneg id b r hq hpred (h r hr)

/-- C1 (amended): over every reachable store state, every stock value
is non-negative (though, against the claim, not always an integer: the
partial update and the stock mutation accept fractional quantities); a
decrement of quantity q succeeds only when the matched document
already had stock at least q, with guard and mutation in one store
request, and the resulting stock is the old stock minus q; and the
pre-save hook coerces a negative stock to zero at save time. -/
theorem C1_stock_invariant :
    (∀ st, Reachable st → ∀ p ∈ st.docs, 0 ≤ p.stock) ∧
    (∀ st id b p, b.operation = .str "decrement" →
      (stockRoute st id b).1 = .ok p →
      ∃ prior, prior ∈ st.docs ∧ prior._id = id ∧
        b.quantity.asNum ≤ prior.stock ∧
        p.stock = prior.stock - b.quantity.asNum) ∧
    (∀ s : ℚ, s < 0 → preSaveStock s = 0) := by
  refine ⟨?_, ?_, ?_⟩
  · intro st h
    induction h with
    | init => intro p hp; exact absurd hp (by simp [store0])
    | create st b _ ih => exact createRoute_stockInv st b ih
    | replace st id b _ ih => exact putRoute_stockInv st id b ih
    | patch st id b _ ih => exact patchRoute_stockInv st id b ih
    | stockMut st id b _ ih => exact stockRoute_stockInv st id b ih
  · intro st id b p hop hok
    simp only [stockRoute] at hok
    split at hok
    · exact absurd hok (by simp)
    · split at hok
      · exact absurd hok (by simp)
      · rcases hfo : findOneAndUpdate st
            (stockPred id (b.operation == .str "decrement") b.quantity.asNum)
            (stockMutate (if b.operation == .str "decrement" then -b.quantity.asNum
              else b.quantity.asNum)) with ⟨r1, r2⟩
        rw [hfo] at hok
        cases r1 with
        | none =>
          rcases hfind : findById r2 id with _ | x <;> simp [hfind] at hok
        | some x =>
          dsimp only at hok
          injection hok with hok
          subst hok
          have h1 : (updateFirst (stockPred id (b.operation == .str "decrement")
              b.quantity.asNum) (stockMutate (if b.operation == .str "decrement"
                then -b.quantity.asNum else b.quantity.asNum)) st.docs).1 = some x :=
            congrArg Prod.fst hfo
          rw [updateFirst_fst] at h1
          rcases Option.map_eq_some'.mp h1 with ⟨prior, hfind, hfx⟩
          have hmem := List.mem_of_find?_eq_some hfind
          have hpred := List.find?_some hfind
          unfold stockPred at hpred
          rw [Bool.and_eq_true] at hpred
          have hid2 : prior._id = id := by
            have := hpred.1
            exact eq_of_beq this
          have hdec : (b.operation == JSValue.str "decrement") = true := by
            simp [hop]
          have hle : b.quantity.asNum ≤ prior.stock := by
            have h2 := hpred.2
            rw [hdec] at h2
            simpa using h2
          refine ⟨prior, hmem, hid2, hle, ?_⟩
          rw [← hfx]
          simp only [stockMutate, if_pos hdec]
          ring
  · intro s hs
    simp [preSaveStock, hs]

/-- C1 counterexample: the store obtained by creating a product with
stock five and then incrementing its stock by one half is reachable,
and holds a product whose stock is not an integer — refuting the part
of the claim that stock is always an integer. -/
theorem C1_fractional_stock :
    Reachable c1Store2 ∧
      ∃ p ∈ c1Store2.docs, p.stock = 11 / 2 ∧ p.stock.den ≠ 1 := by
  constructor
  · exact Reachable.stockMut c1Store1 (hexId 0) c1Inc
      (Reachable.create store0 c1Body Reachable.init)
  · decide

/-- Witness for C1: the pre-save hook coerces stock minus one to
zero. -/
theorem C1_stock_invariant_witness : preSaveStock (-1) = 0 :=
  C1_stock_invariant.2.2 (-1) (by norm_num)

/-- C2: evaluation of the set operation at the failing input. With
prior stock three and quantity five the route answers with stock
eight: the operation field is compared only against decrement, so set
adds the quantity instead of assigning it, against the claim and the
repository README. -/
theorem C2_set_increments :
    (stockRoute exStore exId { quantity := .num 5, operation := .str "set" }).1.stockOf
        = some 8 ∧
      (8 : ℚ) ≠ 5 := by decide

theorem beq_dec_false {v : JSValue} (hv : v ≠ .str "decrement") :
    (v == JSValue.str "decrement") = false :=
  beq_eq_false_iff_ne.mpr hv

theorem stockPred_nonDec (id : String) (q : ℚ) :
    stockPred id false q = fun d => d._id == id := by
  funext d
  simp [stockPred]

/-- C3: when the conditional stock update matched no document, the
route performs a follow-up findById on the store and answers 404
NotFound exactly when the id resolves to no product, and 400
InsufficientStock exactly when a product with that id exists. -/
theorem C3_failure_disambiguation (st : Store) (id : String) (b : StockBody)
    (hid : isValidObjectId id = true)
    (hnum : b.quantity.isNum = true) (hq : 0 < b.quantity.asNum)
    (hnone : (updateFirst (stockPred id (b.operation == .str "decrement") b.quantity.asNum)
      (stockMutate (if b.operation == .str "decrement" then -b.quantity.asNum
        else b.quantity.asNum)) st.docs).1 = none) :
    ((stockRoute st id b).1 = .notFound "Not found" "Product not found" ↔
      findById st id = none) ∧
    ((stockRoute st id b).1 = .badRequest "Insufficient stock" "Not enough stock to decrement" ↔
      (findById st id).isSome = true) := by
  have hg1 : ¬((!isValidObjectId id) = true) := by simp [hid]
  have hg2 : ¬((!b.quantity.isNum || decide (b.quantity.asNum ≤ 0)) = true) := by
    rw [hnum]
    simp [decide_eq_false (not_le.mpr hq)]
  have hfind : st.docs.find? (stockPred id (b.operation == .str "decrement")
      b.quantity.asNum) = none := by
    rw [updateFirst_fst] at hnone
    exact Option.map_eq_none'.mp hnone
  have hdocs : (updateFirst (stockPred id (b.operation == .str "decrement") b.quantity.asNum)
      (stockMutate (if b.operation == .str "decrement" then -b.quantity.asNum
        else b.quantity.asNum)) st.docs).2 = st.docs :=
    updateFirst_snd_none _ _ _ hfind
  unfold stockRoute
  rw [if_neg hg1, if_neg hg2]
  dsimp only
  rcases hfo : findOneAndUpdate st
      (stockPred id (b.operation == .str "decrement") b.quantity.asNum)
      (stockMutate (if b.operation == .str "decrement" then -b.quantity.asNum
        else b.quantity.asNum)) with ⟨r1, r2⟩
  have hr1 : r1 = none := by
    have h0 := congrArg Prod.fst hfo
    dsimp only at h0
    rw [← h0]
    exact hnone
  subst hr1
  have hr2 : r2.docs = st.docs := by
    have h0 := congrArg Prod.snd hfo
    dsimp only at h0
    rw [← h0]
    exact hdocs
  dsimp only
  have hfb : findById r2 id = findById st id := by
    unfold findById
    rw [hr2]
  rw [hfb]
  rcases hf2 : findById st id with _ | x <;> simp

/-- Witness for C3: decrementing five from a product holding three
stock answers 400 InsufficientStock. -/
theorem C3_failure_disambiguation_witness :
    (stockRoute exStore exId { quantity := .num 5, operation := .str "decrement" }).1 =
      .badRequest "Insufficient stock" "Not enough stock to decrement" := by
  have h := C3_failure_disambiguation exStore exId
    { quantity := .num 5, operation := .str "decrement" }
    (by decide) (by decide) (by decide) (by decide)
  exact h.2.mpr (by decide)

/-- C10: a stock mutation with a valid id of an existing product and a
positive numeric quantity, whose operation is anything other than
decrement — set, an unrecognized string, or absent — is not rejected:
the engine adds the quantity to the current stock and answers 200 with
the incremented record. -/
theorem C10_stock_default_increment (st : Store) (id : String) (q : ℚ) (v : JSValue)
    (p : Product) (hid : isValidObjectId id = true) (hq : 0 < q)
    (hv : v ≠ .str "decrement")
    (hp : st.docs.find? (fun d => d._id == id) = some p) :
    (stockRoute st id { quantity := .num q, operation := v }).1 =
        .ok { p with stock := p.stock + q } ∧
      ((stockRoute st id { quantity := .num q, operation := v }).1).status = 200 := by
  have hg1 : ¬((!isValidObjectId id) = true) := by simp [hid]
  have hg2 : ¬((!(JSValue.num q).isNum || decide ((JSValue.num q).asNum ≤ 0)) = true) := by
    simp [JSValue.isNum, JSValue.asNum, decide_eq_false (not_le.mpr hq)]
  have hdec : (v == JSValue.str "decrement") = false := beq_dec_false hv
  have hmain : (stockRoute st id { quantity := .num q, operation := v }).1 =
      .ok { p with stock := p.stock + q } := by
    unfold stockRoute
    rw [if_neg hg1, if_neg hg2]
    dsimp only
    simp only [JSValue.asNum, hdec, Bool.false_eq_true, if_false]
    rcases hfo : findOneAndUpdate st (stockPred id false q) (stockMutate q) with ⟨r1, r2⟩
    have h0 : (updateFirst (stockPred id false q) (stockMutate q) st.docs).1 = r1 := by
      have h1 := congrArg Prod.fst hfo
      dsimp only at h1
      exact h1
    rw [updateFirst_fst, stockPred_nonDec, hp] at h0
    simp only [Option.map_some'] at h0
    rw [← h0]
    rfl
  exact ⟨hmain, by rw [hmain]; rfl⟩

/-- Witness for C10: an absent operation field on a product with stock
three and quantity two answers 200 with stock five. -/
theorem C10_stock_default_increment_witness :
    (stockRoute exStore exId { quantity := .num 2, operation := .undef }).1 =
        .ok { exProd with stock := exProd.stock + 2 } ∧
      ((stockRoute exStore exId { quantity := .num 2, operation := .undef }).1).status = 200 :=
  C10_stock_default_increment exStore exId 2 .undef exProd
    (by decide) (by decide) (by decide) (by decide)

/-- C8: the gateway catch block applies its rules in order: connection
refused answers 503 with an error-message body; a timeout or abort
answers 504 with an error-message body; an axios error carrying an
upstream response relays that status and body; any other failure
answers 502 with a minimal error body when nothing has been written
yet, and otherwise escalates to the enclosing handler. -/
theorem C8_proxy_error_mapping (e : ProxyError) (hs : Bool) :
    (e.isAxiosError = true → e.code = some "ECONNREFUSED" →
      proxyCatch e hs = .respond 503 (.errMsg "Backend service unavailable"
        "The backend service is currently unavailable. Please try again later.")) ∧
    (e.isAxiosError = true → e.code ≠ some "ECONNREFUSED" →
      (e.code = some "ETIMEDOUT" ∨ e.code = some "ECONNABORTED") →
      proxyCatch e hs = .respond 504 (.errMsg "Backend service timeout"
        "The backend service did not respond in time. Please try again later.")) ∧
    (∀ s d, e.isAxiosError = true → e.code ≠ some "ECONNREFUSED" →
      e.code ≠ some "ETIMEDOUT" → e.code ≠ some "ECONNABORTED" →
      e.response = some (s, d) → proxyCatch e hs = .respond s (.upstream d)) ∧
    ((e.isAxiosError = false ∨
        (e.code ≠ some "ECONNREFUSED" ∧ e.code ≠ some "ETIMEDOUT" ∧
          e.code ≠ some "ECONNABORTED" ∧ e.response = none)) →
      (hs = false → proxyCatch e hs = .respond 502 (.errOnly "bad gateway")) ∧
      (hs = true → proxyCatch e hs = .escalate)) := by
  refine ⟨?_, ?_, ?_, ?_⟩
  · intro hax hcode
    simp [proxyCatch, hax, hcode]
  · intro hax hne hor
    have h1 : (e.code == some "ECONNREFUSED") = false := beq_eq_false_iff_ne.mpr hne
    rcases hor with h | h <;> simp [proxyCatch, hax, h, h1]
  · intro s d hax h1 h2 h3 hresp
    have b1 : (e.code == some "ECONNREFUSED") = false := beq_eq_false_iff_ne.mpr h1
    have b2 : (e.code == some "ETIMEDOUT") = false := beq_eq_false_iff_ne.mpr h2
    have b3 : (e.code == some "ECONNABORTED") = false := beq_eq_false_iff_ne.mpr h3
    simp [proxyCatch, hax, hresp, b1, b2, b3]
  · intro hother
    rcases hother with hax | ⟨h1, h2, h3, h4⟩
    · constructor <;> intro hhs <;> simp [proxyCatch, hax, hhs]
    · have b1 : (e.code == some "ECONNREFUSED") = false := beq_eq_false_iff_ne.mpr h1
      have b2 : (e.code == some "ETIMEDOUT") = false := beq_eq_false_iff_ne.mpr h2
      have b3 : (e.code == some "ECONNABORTED") = false := beq_eq_false_iff_ne.mpr h3
      constructor <;> intro hhs <;> cases hax : e.isAxiosError <;>
        simp [proxyCatch, hax, hhs, h4, b1, b2, b3]

/-- Witness for C8: a connection-refused axios error with nothing
written yet answers 503 with the stable unavailable body. -/
theorem C8_proxy_error_mapping_witness :
    proxyCatch { isAxiosError := true, code := some "ECONNREFUSED" } false =
      .respond 503 (.errMsg "Backend service unavailable"
        "The backend service is currently unavailable. Please try again later.") :=
  (C8_proxy_error_mapping { isAxiosError := true, code := some "ECONNREFUSED" } false).1
    rfl rfl

/-- C5: in a partial update only the five allow-listed fields are
considered (the body model carries exactly those); a field enters the
update set exactly when it is present and passes its own check — name
a non-blank string, price a non-negative number, stock a non-negative
number, description and category any present value; the route fails
with the 400 No-data error exactly when the update set is empty; when
it is not empty, the id resolves and the kept fields also pass the
schema update validators, every kept field is applied to the stored
document; and when a kept field fails a validator the route answers
500 with the store unchanged — so a kept field is not always applied,
against the claim's unconditional application. -/
theorem C5_patch_semantics (st : Store) (id : String) (b : ProductBody)
    (hid : isValidObjectId id = true) :
    ((patchUpdate b).name.isSome = (b.name.isStr && jsTrim b.name.asStr != "")) ∧
    ((patchUpdate b).price.isSome = (b.price.isNum && decide (0 ≤ b.price.asNum))) ∧
    ((patchUpdate b).description.isSome = (b.description != .undef)) ∧
    ((patchUpdate b).category.isSome = (b.category != .undef)) ∧
    ((patchUpdate b).stock.isSome = (b.stock.isNum && decide (0 ≤ b.stock.asNum))) ∧
    ((patchRoute st id b).1 = .badRequest "No data" "No valid fields to update" ↔
      (patchUpdate b).isEmpty = true) ∧
    (∀ p, findById st id = some p → (patchUpdate b).isEmpty = false →
      validUpdate (patchUpdate b) = true →
      (patchRoute st id b).1 = .ok (applySet (patchUpdate b) p)) ∧
    ((patchUpdate b).isEmpty = false → validUpdate (patchUpdate b) = false →
      (patchRoute st id b).1 =
          .serverError "Server error" "Failed to update product" ∧
        (patchRoute st id b).2 = st) := by
  have hg1 : ¬((!isValidObjectId id) = true) := by simp [hid]
  refine ⟨?_, ?_, ?_, ?_, ?_, ?_, ?_, ?_⟩
  · obtain ⟨bn, bp, bd, bc, bs⟩ := b
    rcases bn with q | s | bb | _ <;>
      simp [patchUpdate, JSValue.isStr, JSValue.asStr]
    by_cases hs : jsTrim s = "" <;> simp [hs]
  · obtain ⟨bn, bp, bd, bc, bs⟩ := b
    rcases bp with q | s | bb | _ <;>
      simp [patchUpdate, JSValue.isNum, JSValue.asNum]
    by_cases hq : q < 0
    · simp [hq, not_le.mpr hq]
    · simp [hq, not_lt.mp hq]
  · obtain ⟨bn, bp, bd, bc, bs⟩ := b
    rcases bd with q | s | bb | _ <;> simp [patchUpdate]
  · obtain ⟨bn, bp, bd, bc, bs⟩ := b
    rcases bc with q | s | bb | _ <;> simp [patchUpdate]
  · obtain ⟨bn, bp, bd, bc, bs⟩ := b
    rcases bs with q | s | bb | _ <;>
      simp [patchUpdate, JSValue.isNum, JSValue.asNum]
    by_cases hq : q < 0
    · simp [hq, not_le.mpr hq]
    · simp [hq, not_lt.mp hq]
  · unfold patchRoute
    rw [if_neg hg1]
    dsimp only
    by_cases he : (patchUpdate b).isEmpty = true
    · rw [if_pos he]
      simp [he]
    · rw [if_neg he]
      constructor
      · intro hcontra
        by_cases hv : validUpdate (patchUpdate b) = true
        · rw [if_neg (by simp [hv])] at hcontra
          rcases hfo : findByIdAndUpdate st id (patchUpdate b) with ⟨r1, r2⟩
          rw [hfo] at hcontra
          cases r1 <;> simp at hcontra
        · rw [if_pos (by simp [Bool.eq_false_iff.mpr hv])] at hcontra
          simp at hcontra
      · intro hemp
        exact absurd hemp he
  · intro p hp hne hv
    unfold patchRoute
    rw [if_neg hg1]
    dsimp only
    rw [if_neg (by simp [hne] : ¬((patchUpdate b).isEmpty = true))]
    rw [if_neg (by simp [hv])]
    rcases hfo : findByIdAndUpdate st id (patchUpdate b) with ⟨r1, r2⟩
    have h0 : (updateFirst (fun d => d._id == id) (applySet (patchUpdate b)) st.docs).1
        = r1 := by
      have h1 := congrArg Prod.fst hfo
      dsimp only at h1
      exact h1
    rw [updateFirst_fst] at h0
    have hp2 : st.docs.find? (fun d => d._id == id) = some p := hp
    rw [hp2] at h0
    simp only [Option.map_some'] at h0
    rw [← h0]
  · intro hne hv
    unfold patchRoute
    rw [if_neg hg1]
    dsimp only
    rw [if_neg (by simp [hne] : ¬((patchUpdate b).isEmpty = true))]
    rw [if_pos (by simp [hv])]
    exact ⟨rfl, rfl⟩

/-- Witness for C5: a partial update carrying a sanitizable name, a
price of the wrong type and a valid stock drops the price, applies the
other two fields and answers 200. -/
theorem C5_patch_semantics_witness :
    (patchRoute exStore exId pb5).1 = .ok (applySet (patchUpdate pb5) exProd) ∧
      applySet (patchUpdate pb5) exProd = { exProd with name := "Phone1", stock := 7 } :=
  ⟨(C5_patch_semantics exStore exId pb5 (by decide)).2.2.2.2.2.2.1 exProd
      (by decide) (by decide) (by decide),
    by decide⟩

/-- C5 counterexample: a partial update whose only field is a present
101-character category — kept by the route's own per-field check, so
the update set is not empty — is not applied to the resolved
document: the schema update validators reject it, the route answers
500 and the store is unchanged, refuting the claim that every kept
field is applied whenever the id resolves. -/
theorem C5_overlength_counterexample :
    (patchUpdate longCat).isEmpty = false ∧
      findById exStore exId = some exProd ∧
      (patchRoute exStore exId longCat).1 =
        .serverError "Server error" "Failed to update product" ∧
      (patchRoute exStore exId longCat).2 = exStore := by decide

/-- C6 counterexample: create accepts a body whose stock is minus five
by silently dropping the field and answers 201, while the replace
route rejects the same present stock value with 400 — so a present
field is not validated with the same accept or reject outcome as in
create. -/
theorem C6_put_stock_counterexample :
    (createRoute store0 { name := .str "A", price := .num 1, stock := .num (-5) }).1.status
        = 201 ∧
      (putRoute exStore exId { stock := .num (-5) }).1 =
        .badRequest "Invalid stock" "Stock must be a non-negative number" := by decide

/-- C6 (amended): on the replace route, a present name and a present
price are validated exactly as create validates them; a present stock
must be a non-negative number or the request fails with 400 — unlike
create, which silently drops an invalid stock; when name and price
pass the route checks, create answers 201 if the document it builds
also passes the schema validators at save time, and 500 otherwise —
so description and category, never rejected by the route itself, can
still fail the whole request through the schema; any of the five
mutable fields may be supplied, and the route fails with the 400
No-data error exactly when none of the five fields is present. -/
theorem C6_put_validation :
    (∀ v : JSValue, v ≠ .undef → createNameInvalid v = updNameInvalid v) ∧
    (∀ v : JSValue, createPriceInvalid v = updPriceInvalid v) ∧
    (∀ st id b, isValidObjectId id = true →
      (b.name != .undef && updNameInvalid b.name) = false →
      (b.price != .undef && updPriceInvalid b.price) = false →
      (b.stock != .undef && updStockInvalid b.stock) = true →
      (putRoute st id b).1 =
        .badRequest "Invalid stock" "Stock must be a non-negative number") ∧
    (∀ st b, createNameInvalid b.name = false → createPriceInvalid b.price = false →
      validDoc (buildDoc st (sanitizeString b.name.asStr) b.price.asNum
        (createDescr b) (createCat b) (createStk b)) = true →
      (createRoute st b).1.status = 201) ∧
    (∀ st b, createNameInvalid b.name = false → createPriceInvalid b.price = false →
      validDoc (buildDoc st (sanitizeString b.name.asStr) b.price.asNum
        (createDescr b) (createCat b) (createStk b)) = false →
      (createRoute st b).1 =
        .serverError "Server error" "Failed to create product") ∧
    (∀ st id b, isValidObjectId id = true →
      ((putRoute st id b).1 = .badRequest "No data" "No valid fields to update" ↔
        b.name = .undef ∧ b.price = .undef ∧ b.description = .undef ∧
          b.category = .undef ∧ b.stock = .undef)) := by
  refine ⟨?_, ?_, ?_, ?_, ?_, ?_⟩
  · intro v hv
    rcases v with q | s | bb | _
    · simp [createNameInvalid, updNameInvalid, JSValue.isStr]
    · by_cases hs : s = ""
      · subst hs
        decide
      · have hne : s.isEmpty = false := by
          rw [Bool.eq_false_iff]
          intro hcon
          exact hs ((String.isEmpty_iff s).mp hcon)
        simp [createNameInvalid, updNameInvalid, jsFalsy, hne]
    · simp [createNameInvalid, updNameInvalid, JSValue.isStr]
    · exact absurd rfl hv
  · intro v
    rfl
  · intro st id b hid h1 h2 h3
    have hg1 : ¬((!isValidObjectId id) = true) := by simp [hid]
    unfold putRoute
    rw [if_neg hg1, if_neg (by simp [h1]), if_neg (by simp [h2]), if_pos h3]
  · intro st b hn hp hv
    unfold createRoute
    rw [if_neg (by simp [hn]), if_neg (by simp [hp])]
    have hs : saveNew st (sanitizeString b.name.asStr) b.price.asNum
        (createDescr b) (createCat b) (createStk b) =
        some (buildDoc st (sanitizeString b.name.asStr) b.price.asNum
            (createDescr b) (createCat b) (createStk b),
          { docs := st.docs ++ [buildDoc st (sanitizeString b.name.asStr)
              b.price.asNum (createDescr b) (createCat b) (createStk b)],
            seq := st.seq + 1 }) := by
      simp only [saveNew]
      rw [if_pos hv]
    rw [hs]
    rfl
  · intro st b hn hp hv
    unfold createRoute
    rw [if_neg (by simp [hn]), if_neg (by simp [hp])]
    have hs : saveNew st (sanitizeString b.name.asStr) b.price.asNum
        (createDescr b) (createCat b) (createStk b) = none := by
      simp only [saveNew]
      rw [if_neg (by simp [hv])]
    rw [hs]
  · intro st id b hid
    have hg1 : ¬((!isValidObjectId id) = true) := by simp [hid]
    constructor
    · intro hres
      unfold putRoute at hres
      rw [if_neg hg1] at hres
      split at hres
      · simp at hres
      · split at hres
        · simp at hres
        · split at hres
          · simp at hres
          · rename_i hn hp hs
            dsimp only at hres
            split at hres
            · rename_i hempty
              unfold UpdateData.isEmpty at hempty
              simp only [putUpdate, Bool.and_eq_true, Option.isNone_iff_eq_none] at hempty
              obtain ⟨⟨⟨⟨e1, e2⟩, e3⟩, e4⟩, e5⟩ := hempty
              refine ⟨?_, ?_, ?_, ?_, ?_⟩
              · by_cases h : b.name = .undef
                · exact h
                · rw [if_pos (bne_iff_ne.mpr h)] at e1
                  exact absurd e1 (by simp)
              · by_cases h : b.price = .undef
                · exact h
                · rw [if_pos (bne_iff_ne.mpr h)] at e2
                  exact absurd e2 (by simp)
              · by_cases h : b.description = .undef
                · exact h
                · rw [if_pos (bne_iff_ne.mpr h)] at e3
                  exact absurd e3 (by simp)
              · by_cases h : b.category = .undef
                · exact h
                · rw [if_pos (bne_iff_ne.mpr h)] at e4
                  exact absurd e4 (by simp)
              · by_cases h : b.stock = .undef
                · exact h
                · rw [if_pos (bne_iff_ne.mpr h)] at e5
                  exact absurd e5 (by simp)
            · split at hres
              · simp at hres
              · rcases hfo : findByIdAndUpdate st id (putUpdate b) with ⟨r1, r2⟩
                rw [hfo] at hres
                cases r1 <;> simp at hres
    · rintro ⟨e1, e2, e3, e4, e5⟩
      have hu : putUpdate b = {} := by
        simp [putUpdate, e1, e2, e3, e4, e5]
      unfold putRoute
      rw [if_neg hg1, if_neg (by simp [e1]), if_neg (by simp [e2]),
        if_neg (by simp [e5])]
      dsimp only
      rw [if_pos (by rw [hu]; decide)]

/-- Witness for C6: replacing with only a stock of the wrong type is
rejected with the 400 invalid-stock error. -/
theorem C6_put_validation_witness :
    (putRoute exStore exId { stock := .str "bad" }).1 =
      .badRequest "Invalid stock" "Stock must be a non-negative number" :=
  C6_put_validation.2.2.1 exStore exId { stock := .str "bad" }
    (by decide) (by decide) (by decide) (by decide)

theorem effPage_pos (q : ListQuery) : 1 ≤ effPage q := le_max_left 1 _

theorem effLimit_pos (q : ListQuery) : 1 ≤ effLimit q := by
  unfold effLimit
  exact le_min (by norm_num) (le_max_left 1 _)

theorem jsCeil_eq (t : ℕ) (l : ℤ) (hl : 1 ≤ l) :
    jsCeil t l = (((t + l.toNat - 1) / l.toNat : ℕ) : ℤ) := by
  have hm : 0 < l.toNat := by omega
  set m := l.toNat with hmdef
  have hlm : (l : ℚ) = (m : ℚ) := by
    have : l = (m : ℤ) := by omega
    rw [this]
    push_cast
    rfl
  set n := (t + m - 1) / m with hn
  have hdm := Nat.div_add_mod (t + m - 1) m
  have hmod := Nat.mod_lt (t + m - 1) hm
  rw [← hn] at hdm
  have h1 : t ≤ m * n := by omega
  have h2 : m * n < t + m := by omega
  have hmq : (0 : ℚ) < (m : ℚ) := by exact_mod_cast hm
  unfold jsCeil
  rw [hlm, Int.ceil_eq_iff]
  constructor
  · rw [lt_div_iff₀ hmq]
    have h2q : (m : ℚ) * n < t + m := by exact_mod_cast h2
    push_cast
    nlinarith [h2q]
  · rw [div_le_iff₀ hmq]
    have h1q : (t : ℚ) ≤ m * n := by exact_mod_cast h1
    push_cast
    nlinarith [h1q]

/-- C4 (amended): with effective page p and effective limit l, the
list response skips exactly (p-1)*l records of the sorted matching
sequence, total counts every matching record independent of
pagination, pages is the ceiling of total over l, hasNext is p*l less
than total and hasPrev is p greater than one; when no record matches,
products is empty, total and pages are zero, hasNext is false, and
hasPrev is false whenever the effective page is one (hasPrev remains p
greater than one, so a no-match request for a later page still reports
hasPrev true, against the claim). -/
theorem C4_pagination_math (st : Store) (q : ListQuery) :
    (listRoute st q).products =
      ((sortLe (listLe q) (st.docs.filter (matchesFilter q))).drop
        ((effPage q - 1) * effLimit q).toNat).take (effLimit q).toNat ∧
    (listRoute st q).total = (st.docs.filter (matchesFilter q)).length ∧
    (listRoute st q).pages =
      ((((st.docs.filter (matchesFilter q)).length + (effLimit q).toNat - 1) /
        (effLimit q).toNat : ℕ) : ℤ) ∧
    (listRoute st q).hasNext =
      decide (effPage q * effLimit q < ((st.docs.filter (matchesFilter q)).length : ℤ)) ∧
    (listRoute st q).hasPrev = decide (1 < effPage q) ∧
    (st.docs.filter (matchesFilter q) = [] →
      (listRoute st q).products = [] ∧ (listRoute st q).total = 0 ∧
      (listRoute st q).pages = 0 ∧ (listRoute st q).hasNext = false ∧
      (effPage q = 1 → (listRoute st q).hasPrev = false)) := by
  refine ⟨rfl, rfl, ?_, rfl, rfl, ?_⟩
  · exact jsCeil_eq _ _ (effLimit_pos q)
  · intro h
    have h0 : (st.docs.filter (matchesFilter q)).length = 0 := by
      rw [h]
      rfl
    refine ⟨?_, ?_, ?_, ?_, ?_⟩
    · show ((sortLe (listLe q) (st.docs.filter (matchesFilter q))).drop
        ((effPage q - 1) * effLimit q).toNat).take (effLimit q).toNat = []
      rw [h]
      simp [sortLe]
    · exact h0
    · show jsCeil (st.docs.filter (matchesFilter q)).length (effLimit q) = 0
      rw [h0, jsCeil_eq 0 (effLimit q) (effLimit_pos q)]
      have hz : (0 + (effLimit q).toNat - 1) / (effLimit q).toNat = 0 :=
        Nat.div_eq_of_lt (by have := effLimit_pos q; omega)
      rw [hz]
      rfl
    · show decide (effPage q * effLimit q <
          ((st.docs.filter (matchesFilter q)).length : ℤ)) = false
      rw [h0]
      have hpos : (0 : ℤ) < effPage q * effLimit q :=
        mul_pos (by have := effPage_pos q; omega) (by have := effLimit_pos q; omega)
      exact decide_eq_false (by push_cast; omega)
    · intro hp1
      show decide (1 < effPage q) = false
      rw [hp1]
      exact decide_eq_false (lt_irrefl 1)

/-- C4 counterexample: a list request for page two over an empty store
matches no record, yet answers hasPrev true — hasPrev is page greater
than one regardless of the match count, so the claim that every
no-match response has hasPrev false fails. -/
theorem C4_hasPrev_counterexample :
    (listRoute store0 { page := some 2 }).total = 0 ∧
      (listRoute store0 { page := some 2 }).products = [] ∧
      (listRoute store0 { page := some 2 }).hasPrev = true := by
  refine ⟨rfl, rfl, ?_⟩
  show decide ((1 : ℤ) < effPage { page := some 2 }) = true
  norm_num [effPage, parsedOr]

/-- Witness for C4: the default list request over the empty store
matches nothing and answers an empty page with hasPrev false. -/
theorem C4_pagination_math_witness :
    (listRoute store0 ({} : ListQuery)).products = [] ∧
      (listRoute store0 ({} : ListQuery)).hasPrev = false := by
  have h := (C4_pagination_math store0 ({} : ListQuery)).2.2.2.2.2 rfl
  exact ⟨h.1, h.2.2.2.2 (by norm_num [effPage, parsedOr])⟩

theorem parseAtoms_plain :
    ∀ l : List Char, (∀ c ∈ l, (!regexMeta.contains c && c != '.') = true) →
      parseAtoms l = some (l.map RAtom.lit)
  | [] => by
    intro _
    rfl
  | c :: cs => by
    intro h
    have hc := h c (by simp)
    rw [Bool.and_eq_true] at hc
    have h1 : regexMeta.contains c = false := by simpa using hc.1
    have h2 : (c == '.') = false := by simpa using hc.2
    unfold parseAtoms
    rw [if_neg (by rw [h1]; simp), parseAtoms_plain cs (fun x hx => h x (by simp [hx])),
      Option.map_some']
    simp [h2]

theorem atomsFront_lit :
    ∀ (l cs : List Char), atomsFront (l.map RAtom.lit) cs = l.isPrefixOf cs
  | [], cs => by cases cs <;> rfl
  | c :: l, [] => rfl
  | c :: l, d :: cs => by
    simp only [List.map_cons, atomsFront, List.isPrefixOf, atomsFront_lit l cs]

theorem atomsSearch_lit :
    ∀ (l s : List Char), atomsSearch (l.map RAtom.lit) s = subSearch l s
  | l, [] => by cases l <;> rfl
  | l, c :: cs => by
    simp only [atomsSearch, subSearch, atomsFront_lit, atomsSearch_lit l cs]

theorem regexTestI_plain (pat s : String) (h : plainPattern pat = true) :
    regexTestI pat s = containsI pat s := by
  unfold regexTestI containsI
  rw [parseAtoms_plain pat.toList (List.all_eq_true.mp h)]
  dsimp only
  have hmm : (pat.toList.map RAtom.lit).map lowAtom =
      (pat.toList.map Char.toLower).map RAtom.lit := by
    rw [List.map_map, List.map_map]
    rfl
  rw [hmm, atomsSearch_lit]

/-- C7 (amended): a missing, non-string or blank query is rejected
with 400 exactly as claimed; for a sanitized query holding no
regular-expression metacharacter, the result set is exactly the
products whose name, description or category contains the sanitized
query as a case-insensitive substring, ordered by creation time
descending, capped at fifty, with count the number returned — but the
query is interpreted as a regular expression, not a literal substring,
so for metacharacter queries the substring reading fails. -/
theorem C7_search_semantics (st : Store) (q : JSValue) :
    (searchRoute st q = .badRequest "Invalid query" "Search query is required" ↔
      (jsFalsy q || !q.isStr || jsTrim q.asStr == "") = true) ∧
    ((jsFalsy q || !q.isStr || jsTrim q.asStr == "") = false →
      plainPattern (sanitizeString q.asStr) = true →
      searchRoute st q = .ok (searchSpecList st (sanitizeString q.asStr))
        (searchSpecList st (sanitizeString q.asStr)).length) := by
  constructor
  · by_cases hc : (jsFalsy q || !q.isStr || jsTrim q.asStr == "") = true
    · unfold searchRoute
      rw [if_pos hc]
      simp [hc]
    · unfold searchRoute
      rw [if_neg hc]
      simp [hc]
  · intro hc hplain
    unfold searchRoute
    rw [if_neg (by simp [hc])]
    have hfilter : st.docs.filter (searchDoc (sanitizeString q.asStr)) =
        st.docs.filter (fun p =>
          containsI (sanitizeString q.asStr) p.name ||
          containsI (sanitizeString q.asStr) p.description ||
          containsI (sanitizeString q.asStr) p.category) := by
      apply List.filter_congr
      intro p _
      unfold searchDoc
      rw [regexTestI_plain _ _ hplain, regexTestI_plain _ _ hplain,
        regexTestI_plain _ _ hplain]
    show SearchResult.ok _ _ = _
    unfold searchSpecList
    rw [← hfilter]

/-- C7 counterexample: searching for a lone dot matches the Laptop
product because the dot is a regular-expression wildcard, although the
dot is not a substring of any of its three text fields — refuting the
claimed substring semantics for metacharacter queries. -/
theorem C7_regex_counterexample :
    searchRoute searchStore (.str ".") = .ok [laptopProd] 1 ∧
      containsI "." laptopProd.name = false ∧
      containsI "." laptopProd.description = false ∧
      containsI "." laptopProd.category = false := by decide

/-- Witness for C7: a plain literal query returns exactly the
substring matches. -/
theorem C7_search_semantics_witness :
    searchRoute searchStore (.str "apt") =
      .ok (searchSpecList searchStore (sanitizeString (JSValue.str "apt").asStr))
        (searchSpecList searchStore (sanitizeString (JSValue.str "apt").asStr)).length ∧
      searchSpecList searchStore (sanitizeString (JSValue.str "apt").asStr) =
        [laptopProd] :=
  ⟨(C7_search_semantics searchStore (.str "apt")).2 (by decide) (by decide), by decide⟩

theorem head?_trimLeft_not_ws :
    ∀ l : List Char, ∀ c, (trimLeft l).head? = some c → isWsChar c = false
  | [] => by
    intro c h
    simp [trimLeft] at h
  | a :: l => by
    intro c h
    by_cases ha : isWsChar a
    · rw [show trimLeft (a :: l) = trimLeft l from by
        simp [trimLeft, List.dropWhile_cons, ha]] at h
      exact head?_trimLeft_not_ws l c h
    · rw [show trimLeft (a :: l) = a :: l from by
        simp [trimLeft, List.dropWhile_cons, ha]] at h
      injection h with h
      subst h
      exact Bool.eq_false_iff.mpr ha

theorem mem_trimLeft : ∀ l : List Char, ∀ c, c ∈ trimLeft l → c ∈ l
  | [] => by
    intro c h
    simp [trimLeft] at h
  | a :: l => by
    intro c h
    by_cases ha : isWsChar a
    · rw [show trimLeft (a :: l) = trimLeft l from by
        simp [trimLeft, List.dropWhile_cons, ha]] at h
      exact List.mem_cons_of_mem _ (mem_trimLeft l c h)
    · rwa [show trimLeft (a :: l) = a :: l from by
        simp [trimLeft, List.dropWhile_cons, ha]] at h

theorem mem_jsTrimList (l : List Char) (c : Char) (h : c ∈ jsTrimList l) : c ∈ l := by
  unfold jsTrimList at h
  have h1 := mem_trimLeft _ _ h
  rw [List.mem_reverse] at h1
  have h2 := mem_trimLeft _ _ h1
  rwa [List.mem_reverse] at h2

theorem getLast?_trimLeft :
    ∀ l : List Char, trimLeft l ≠ [] → (trimLeft l).getLast? = l.getLast?
  | [] => by
    intro h
    exact absurd rfl h
  | a :: l => by
    intro h
    by_cases ha : isWsChar a
    · have e : trimLeft (a :: l) = trimLeft l := by
        simp [trimLeft, List.dropWhile_cons, ha]
      rw [e] at h ⊢
      rw [getLast?_trimLeft l h]
      have hl : l ≠ [] := by
        intro hnil
        rw [hnil] at h
        exact h rfl
      rcases l with _ | ⟨b, bs⟩
      · exact absurd rfl hl
      · simp
    · rw [show trimLeft (a :: l) = a :: l from by
        simp [trimLeft, List.dropWhile_cons, ha]]

theorem noEdgeWsList_trim (l : List Char) : noEdgeWsList (jsTrimList l) = true := by
  unfold noEdgeWsList
  rw [Bool.and_eq_true]
  constructor
  · rcases hh : (jsTrimList l).head? with _ | c
    · rfl
    · have hw : isWsChar c = false := head?_trimLeft_not_ws _ _ hh
      show (!isWsChar c) = true
      rw [hw]
      rfl
  · rcases hg : (jsTrimList l).getLast? with _ | c
    · rfl
    · have hne : jsTrimList l ≠ [] := by
        intro h0
        rw [h0] at hg
        simp at hg
      have h1 : (jsTrimList l).getLast? = ((trimLeft l.reverse).reverse).getLast? :=
        getLast?_trimLeft _ hne
      rw [h1, List.getLast?_reverse] at hg
      have hw : isWsChar c = false := head?_trimLeft_not_ws _ _ hg
      show (!isWsChar c) = true
      rw [hw]
      rfl

theorem mem_of_getLast? :
    ∀ l : List Char, ∀ c, l.getLast? = some c → c ∈ l
  | [] => by
    intro c h
    simp at h
  | [a] => by
    intro c h
    simp at h
    simp [h]
  | a :: b :: l => by
    intro c h
    rw [List.getLast?_cons_cons] at h
    exact List.mem_cons_of_mem _ (mem_of_getLast? (b :: l) c h)

theorem noEdgeWsList_of_all (l : List Char)
    (h : ∀ c ∈ l, isWsChar c = false) : noEdgeWsList l = true := by
  unfold noEdgeWsList
  rw [Bool.and_eq_true]
  constructor
  · rcases hh : l.head? with _ | c
    · rfl
    · have hc : c ∈ l := by
        rcases l with _ | ⟨a, as⟩
        · simp at hh
        · injection hh with hh
          simp [hh]
      show (!isWsChar c) = true
      rw [h c hc]
      rfl
  · rcases hg : l.getLast? with _ | c
    · rfl
    · show (!isWsChar c) = true
      rw [h c (mem_of_getLast? l c hg)]
      rfl

theorem noAngles_of_mem (l : List Char)
    (h : ∀ c ∈ l, (!(c == '<' || c == '>')) = true) :
    noAngles (String.mk l) = true := by
  unfold noAngles
  rw [List.all_eq_true]
  exact fun c hc => h c hc

theorem noAngles_sanitize (s : String) : noAngles (sanitizeString s) = true := by
  apply noAngles_of_mem
  intro c hc
  exact (List.mem_filter.mp hc).2

theorem noAngles_mem_of (s : String) (h : noAngles s = true) :
    ∀ c ∈ s.toList, (!(c == '<' || c == '>')) = true :=
  List.all_eq_true.mp h

theorem textOk_jsTrim (s : String) (h : noAngles s = true) : textOk (jsTrim s) := by
  constructor
  · apply noAngles_of_mem
    intro c hc
    exact noAngles_mem_of s h c (mem_jsTrimList _ _ hc)
  · exact noEdgeWsList_trim _

theorem textOk_jsTrim_getD (o : Option String) (d : String)
    (ho : ∀ x, o = some x → noAngles x = true) (hd : noAngles d = true) :
    textOk (jsTrim (o.getD d)) := by
  rcases o with _ | x
  · exact textOk_jsTrim d hd
  · exact textOk_jsTrim x (ho x rfl)

theorem digitsAux_mem (b : ℕ) (hb1 : 0 < b) (hb2 : b ≤ 16) :
    ∀ fuel n c, c ∈ digitsAux b fuel n → ∃ k, k < 16 ∧ c = hexChar k
  | 0, n, c => by
    intro h
    simp [digitsAux] at h
  | fuel + 1, n, c => by
    intro h
    unfold digitsAux at h
    by_cases hn : n < b
    · rw [if_pos hn] at h
      simp at h
      exact ⟨n, lt_of_lt_of_le hn hb2, h⟩
    · rw [if_neg hn] at h
      rw [List.mem_append] at h
      rcases h with h | h
      · exact digitsAux_mem b hb1 hb2 fuel (n / b) c h
      · simp at h
        exact ⟨n % b, lt_of_lt_of_le (Nat.mod_lt n hb1) hb2, h⟩

theorem hexChar_ok : ∀ k, k < 16 →
    isWsChar (hexChar k) = false ∧ (!(hexChar k == '<' || hexChar k == '>')) = true := by
  decide

theorem ratToStr_ok (qq : ℚ) : textOk (ratToStr qq) := by
  have hall : ∀ c ∈ ((if qq.num < 0 then ['-'] else []) ++ decDigits qq.num.natAbs ++
      (if qq.den == 1 then [] else '/' :: decDigits qq.den)),
      isWsChar c = false ∧ (!(c == '<' || c == '>')) = true := by
    intro c hc
    rw [List.mem_append, List.mem_append] at hc
    rcases hc with (hc | hc) | hc
    · split at hc
      · simp at hc
        subst hc
        decide
      · simp at hc
    · rcases digitsAux_mem 10 (by norm_num) (by norm_num) _ _ c hc with ⟨k, hk, rfl⟩
      exact hexChar_ok k hk
    · split at hc
      · simp at hc
      · rcases (List.mem_cons).mp hc with rfl | hc
        · decide
        · rcases digitsAux_mem 10 (by norm_num) (by norm_num) _ _ c hc with ⟨k, hk, rfl⟩
          exact hexChar_ok k hk
  constructor
  · exact noAngles_of_mem _ (fun c hc => (hall c hc).2)
  · exact noEdgeWsList_of_all _ (fun c hc => (hall c hc).1)

theorem textOk_cast (v : JSValue) (h : ∀ s, v = .str s → noAngles s = true) :
    textOk (castToStoreString v) := by
  rcases v with qq | s | bb | _
  · exact ratToStr_ok qq
  · exact textOk_jsTrim s (h s rfl)
  · cases bb
    · exact ⟨by decide, by decide⟩
    · exact ⟨by decide, by decide⟩
  · exact ⟨by decide, by decide⟩

theorem applySet_textOk (u : UpdateData) (p : Product)
    (hn : ∀ s, u.name = some s → noAngles s = true)
    (hd : ∀ v s, u.description = some v → v = .str s → noAngles s = true)
    (hc : ∀ v s, u.category = some v → v = .str s → noAngles s = true)
    (hp : docTextOk p) : docTextOk (applySet u p) := by
  refine ⟨?_, ?_, ?_⟩
  · show textOk (match u.name with | some s => jsTrim s | none => p.name)
    rcases hun : u.name with _ | s
    · exact hp.1
    · exact textOk_jsTrim s (hn s hun)
  · show textOk (match u.description with
      | some v => castToStoreString v
      | none => p.description)
    rcases hud : u.description with _ | v
    · exact hp.2.1
    · exact textOk_cast v (fun s hs => hd v s hud hs)
  · show textOk (match u.category with
      | some v => castToStoreString v
      | none => p.category)
    rcases huc : u.category with _ | v
    · exact hp.2.2
    · exact textOk_cast v (fun s hs => hc v s huc hs)

theorem putUpdate_clean (b : ProductBody) :
    (∀ s, (putUpdate b).name = some s → noAngles s = true) ∧
    (∀ v s, (putUpdate b).description = some v → v = .str s → noAngles s = true) ∧
    (∀ v s, (putUpdate b).category = some v → v = .str s → noAngles s = true) := by
  refine ⟨?_, ?_, ?_⟩
  · intro s hs
    simp only [putUpdate] at hs
    split at hs
    · injection hs with hs
      rw [← hs]
      exact noAngles_sanitize _
    · exact absurd hs (by simp)
  · intro v s hv hs
    simp only [putUpdate] at hv
    split at hv
    · injection hv with hv
      rw [← hv] at hs
      injection hs with hs
      split at hs
      · rw [← hs]
        exact noAngles_sanitize _
      · rw [← hs]
        decide
    · exact absurd hv (by simp)
  · intro v s hv hs
    simp only [putUpdate] at hv
    split at hv
    · injection hv with hv
      rw [← hv] at hs
      injection hs with hs
      split at hs
      · rw [← hs]
        exact noAngles_sanitize _
      · rw [← hs]
        decide
    · exact absurd hv (by simp)

theorem patchUpdate_clean (b : ProductBody) :
    (∀ s, (patchUpdate b).name = some s → noAngles s = true) ∧
    (∀ v s, (patchUpdate b).description = some v → v = .str s → noAngles s = true) ∧
    (∀ v s, (patchUpdate b).category = some v → v = .str s → noAngles s = true) := by
  refine ⟨?_, ?_, ?_⟩
  · intro s hs
    simp only [patchUpdate] at hs
    split at hs
    · split at hs
      · exact absurd hs (by simp)
      · injection hs with hs
        rw [← hs]
        exact noAngles_sanitize _
    · exact absurd hs (by simp)
  · intro v s hv hs
    simp only [patchUpdate] at hv
    split at hv
    · injection hv with hv
      rw [← hv] at hs
      split at hs
      · injection hs with hs
        rw [← hs]
        exact noAngles_sanitize _
      · rename_i hstr
        rw [hs] at hstr
        exact absurd rfl hstr
    · exact absurd hv (by simp)
  · intro v s hv hs
    simp only [patchUpdate] at hv
    split at hv
    · injection hv with hv
      rw [← hv] at hs
      split at hs
      · injection hs with hs
        rw [← hs]
        exact noAngles_sanitize _
      · rename_i hstr
        rw [hs] at hstr
        exact absurd rfl hstr
    · exact absurd hv (by simp)

theorem createRoute_textOk (st : Store) (b : ProductBody)
    (h : storeTextOk st) : storeTextOk (createRoute st b).2 := by
  unfold createRoute
  split
  · exact h
  · split
    · exact h
    · split
      · rename_i p st2 heq
        rcases saveNew_some _ _ _ _ _ _ _ _ heq with ⟨hpeq, hst⟩
        intro x hx
        rw [show (CreateResult.created p, st2).2 = st2 from rfl, hst] at hx
        simp only [List.mem_append, List.mem_singleton] at hx
        rcases hx with hx | rfl
        · exact h x hx
        · rw [hpeq]
          refine ⟨?_, ?_, ?_⟩
          · exact textOk_jsTrim _ (noAngles_sanitize _)
          · apply textOk_jsTrim_getD
            · intro y hy
              unfold createDescr at hy
              split at hy
              · injection hy with hy
                rw [← hy]
                exact noAngles_sanitize _
              · exact absurd hy (by simp)
            · decide
          · apply textOk_jsTrim_getD
            · intro y hy
              unfold createCat at hy
              split at hy
              · injection hy with hy
                rw [← hy]
                exact noAngles_sanitize _
              · exact absurd hy (by simp)
            · decide
      · exact h

theorem putRoute_textOk (st : Store) (id : String) (b : ProductBody)
    (h : storeTextOk st) : storeTextOk (putRoute st id b).2 := by
  rcases putRoute_snd_cases st id b with heq | ⟨_, hdocs⟩
  · rw [heq]
    exact h
  · intro p hp
    rw [hdocs] at hp
    rcases mem_updateFirst _ _ _ p hp with hmem | ⟨r, hr, _, rfl⟩
    · exact h p hmem
    · exact applySet_textOk _ _ (putUpdate_clean b).1 (putUpdate_clean b).2.1
        (putUpdate_clean b).2.2 (h r hr)

theorem patchRoute_textOk (st : Store) (id : String) (b : ProductBody)
    (h : storeTextOk st) : storeTextOk (patchRoute st id b).2 := by
  rcases patchRoute_snd_cases st id b with heq | hdocs
  · rw [heq]
    exact h
  · intro p hp
    rw [hdocs] at hp
    rcases mem_updateFirst _ _ _ p hp with hmem | ⟨r, hr, _, rfl⟩
    · exact h p hmem
    · exact applySet_textOk _ _ (patchUpdate_clean b).1 (patchUpdate_clean b).2.1
        (patchUpdate_clean b).2.2 (h r hr)

theorem stockRoute_textOk (st : Store) (id : String) (b : StockBody)
    (h : storeTextOk st) : storeTextOk (stockRoute st id b).2 := by
  rcases stockRoute_snd_cases st id b with heq | ⟨_, _, hdocs⟩
  · rw [heq]
    exact h
  · intro p hp
    rw [hdocs] at hp
    rcases mem_updateFirst _ _ _ p hp with hmem | ⟨r, hr, _, rfl⟩
    · exact h p hmem
    · exact h r hr

/-- C9 counterexample: the input with a bracket before interior
whitespace shows sanitizeString trimming before stripping brackets:
the sanitized value used by search keeps a leading space, refuting the
claim that every sanitized value has no leading or trailing
whitespace. -/
theorem C9_whitespace_counterexample :
    sanitizeString "< a" = " a" ∧ noEdgeWs (sanitizeString "< a") = false := by decide

/-- C9 (amended): every sanitized value contains no angle bracket, and
when the trimmed input holds no angle bracket the sanitized value is
exactly the trimmed input, hence has no surrounding whitespace; every
text field stored by any reachable sequence of operations (name,
description, category) contains no angle bracket and no surrounding
whitespace, because the schema trim setter runs after sanitization;
the search query as used, however, is only bracket-free — bracket
removal after trimming can expose interior whitespace at the edges. -/
theorem C9_sanitization :
    (∀ s : String, noAngles (sanitizeString s) = true) ∧
    (∀ s : String, noAngles (jsTrim s) = true → sanitizeString s = jsTrim s) ∧
    (∀ st, Reachable st → ∀ p ∈ st.docs,
      (noAngles p.name = true ∧ noEdgeWs p.name = true) ∧
      (noAngles p.description = true ∧ noEdgeWs p.description = true) ∧
      (noAngles p.category = true ∧ noEdgeWs p.category = true)) := by
  refine ⟨noAngles_sanitize, ?_, ?_⟩
  · intro s h
    unfold sanitizeString
    have e : (jsTrimList s.toList).filter (fun c => !(c == '<' || c == '>')) =
        jsTrimList s.toList :=
      List.filter_eq_self.mpr (List.all_eq_true.mp h)
    rw [e]
    rfl
  · intro st h
    induction h with
    | init =>
      intro p hp
      exact absurd hp (by simp [store0])
    | create st b _ ih => exact createRoute_textOk st b ih
    | replace st id b _ ih => exact putRoute_textOk st id b ih
    | patch st id b _ ih => exact patchRoute_textOk st id b ih
    | stockMut st id b _ ih => exact stockRoute_textOk st id b ih

/-- Witness for C9: a plain padded word is sanitized to exactly its
trimmed form. -/
theorem C9_sanitization_witness :
    noAngles (jsTrim "  ok  ") = true ∧ sanitizeString "  ok  " = jsTrim "  ok  " :=
  ⟨by decide, C9_sanitization.2.1 "  ok  " (by decide)⟩

end ProductService
